import Mathlib

/-! Verification of the FM converter: a shallow embedding of
`fm_converter.py` and `fm_converter_gui.py` (fixed-width Family Physician
upload builder) together with proofs about its record codec, candidate
selection pipeline and error behaviour.  Bytes are modelled as `Nat`,
Python strings as `String`, missing (`NaN`) cells as `Option`, and code
that can raise as `Except`.  Python string primitives (`strip`, `lstrip`,
`rstrip`, `upper`, `isdigit`, `int`) are modelled over the character
classes the program actually feeds them: ASCII whitespace, ASCII digits,
and ASCII plus full-width Latin letters for case mapping. -/

namespace FM

abbrev Byte := Nat

/-- An output text encoding: any function from a string to its encoded
byte sequence.  Stands for `value.encode(enc, errors="replace")`; all
codec-length facts below hold for an arbitrary encoding. -/
abbrev Encoding := String → List Byte

/-- The apostrophe character (code point 39) stripped by the source's
`lstrip` / `rstrip` calls. -/
def apos : Char := Char.ofNat 39

/-- Python `str.strip()` on a character list (ASCII whitespace). -/
def stripChars (l : List Char) : List Char :=
  ((l.dropWhile Char.isWhitespace).reverse.dropWhile Char.isWhitespace).reverse

/-- Python `str.strip()`. -/
def pyStrip (s : String) : String := ⟨stripChars s.data⟩

/-- Python `str.lstrip("'")`: drops every leading apostrophe. -/
def lstripAposChars (l : List Char) : List Char := l.dropWhile (fun c => c == apos)

/-- Python `str.rstrip("'")`: drops every trailing apostrophe. -/
def rstripAposChars (l : List Char) : List Char :=
  (l.reverse.dropWhile (fun c => c == apos)).reverse

/-- Python `str.lstrip("'")` on strings. -/
def lstripApos (s : String) : String := ⟨lstripAposChars s.data⟩

/-- Python `str.upper()` on one character, covering ASCII `a`-`z` and the
full-width Latin letters U+FF41-U+FF5A (both map up by 32 code points;
everything else, in particular full-width digits, is unchanged). -/
def pyUpperChar (c : Char) : Char :=
  if 97 ≤ c.toNat ∧ c.toNat ≤ 122 then Char.ofNat (c.toNat - 32)
  else if 0xFF41 ≤ c.toNat ∧ c.toNat ≤ 0xFF5A then Char.ofNat (c.toNat - 32)
  else c

/-- Python `str.isdigit()` for ASCII digit strings: false for the empty
string, true only when every character is a digit. -/
def pyIsDigitStr (s : String) : Bool := (!s.data.isEmpty) && s.data.all Char.isDigit

/-- Python `int()` on a string of ASCII digits. -/
def pyIntDigits (s : String) : Nat :=
  s.data.foldl (fun a c => a * 10 + (c.toNat - 48)) 0

/-- `roc_date.replace("/", "").replace("-", "")` from the source. -/
def stripSeps (s : String) : String :=
  ⟨s.data.filter (fun c => !(c == '/' || c == '-'))⟩

/-- `f"{year:04d}"`: decimal rendering zero-padded to at least 4 digits. -/
def pad4 (n : Nat) : String :=
  ⟨List.replicate (4 - (toString n).length) '0'⟩ ++ toString n

/-- Source `roc_to_gregorian` (fm_converter.py lines 47-53): strip `/` and
`-`, demand total length 6 or 7, add 1911 to the leading year digits and
keep the trailing `MMDD`.  A raised `ValueError` is an `Except.error`. -/
def roc_to_gregorian (rocDate : String) : Except String String :=
  let d := stripSeps rocDate
  if d.length = 6 ∨ d.length = 7 then
    let yearStr : String := ⟨d.data.take (d.length - 4)⟩
    if pyIsDigitStr yearStr then
      .ok (pad4 (pyIntDigits yearStr + 1911) ++ ⟨d.data.drop (d.length - 4)⟩)
    else .error "invalid literal for int"
  else .error "Unexpected ROC date format"

/-- Source `_fw` (fm_converter.py lines 64-68): encode, truncate to
`width` bytes, and pad with ASCII spaces on the right (`"l"`) or the
left (any other alignment string; the source only passes `"r"`). -/
def _fw (enc : Encoding) (value : String) (width : Nat) (align : String) : List Byte :=
  let raw := (enc value).take width
  let padBytes := List.replicate (width - raw.length) 32
  if align = "l" then raw ++ padBytes else padBytes ++ raw

/-- Source `_map_sex` (fm_converter.py lines 72-88): second character of
the identifier decides the sex code; anything else (including identifiers
shorter than two characters) gives a blank field, never an error. -/
def _map_sex (idNumber : String) : String :=
  if idNumber.length < 2 then ""
  else if idNumber.data.getD 1 ' ' = '1' ∨ idNumber.data.getD 1 ' ' = '8' then "1"
  else if idNumber.data.getD 1 ' ' = '2' ∨ idNumber.data.getD 1 ' ' = '9' then "2"
  else ""

/-- Source `_clean_tel` (fm_converter.py lines 202-213). -/
def _clean_tel (v : String) : String :=
  let s := pyStrip v
  let s :=
    if (match s.data.reverse with
        | '0' :: '.' :: _ => true
        | _ => false) &&
       pyIsDigitStr ⟨s.data.dropLast.dropLast⟩ then
      (⟨s.data.dropLast.dropLast⟩ : String)
    else s
  if (!s.data.isEmpty) && !(match s.data with | '0' :: _ => true | _ => false) then "0" ++ s else s

/-- Source `CASE_TYPE_MAP` (fm_converter.py lines 32-34). -/
def CASE_TYPE_MAP : List (Nat × String) :=
  [(1, "A"), (2, "A"), (3, "A"), (4, "A"), (5, "A"), (7, "A"), (6, "C")]

/-- Python `dict.get(k, default)` over the association list above. -/
def dictGet (d : List (Nat × String)) (k : Nat) (dflt : String) : String :=
  match d.find? (fun p => p.1 == k) with
  | some p => p.2
  | none => dflt

/-- `_raw_case = str(row.get("個案類別","")).strip().lstrip("'")` followed by
`case_num = int(_raw_case) if _raw_case.isdigit() else 0`. -/
def caseNumOf (raw : String) : Nat :=
  let t := lstripApos (pyStrip raw)
  if pyIsDigitStr t then pyIntDigits t else 0

/-- The CASE_TYPE value `build_record` encodes for a raw case code:
`CASE_TYPE_MAP.get(case_num, "B")`. -/
def caseTypeOf (raw : String) : String := dictGet CASE_TYPE_MAP (caseNumOf raw) "B"

/-- One merged row as consumed by `build_record`: the row fields the
source reads via `row.get` (birthday, raw case code, identifier, name,
address, telephone). -/
structure Row where
  birth : String
  caseCode : String
  idNum : String
  name : String
  addr : String
  tel : String
deriving DecidableEq

/-- The run-level constants prompted from the operator. -/
structure FixedParams where
  planNo : String
  branchCode : String
  hospId : String
  prsnId : String
deriving DecidableEq

/-- Source `build_record` (fm_converter.py lines 92-154): assembles one
fixed-width record; raises (returns `Except.error`) on a missing birthday
or an unparsable ROC date, otherwise returns the concatenation of the 15
`_fw` fields. -/
def build_record (enc : Encoding) (row : Row) (fixed : FixedParams)
    (startDate endDate segmentType closeReason : String) :
    Except String (List Byte) :=
  let birthdayRoc := pyStrip row.birth
  if birthdayRoc = "" then .error "Missing birthday"
  else
    let caseNum := caseNumOf row.caseCode
    let formattedStart := stripSeps startDate
    let formattedEnd := if segmentType = "B" then stripSeps endDate else ""
    let finalCloseReason := if segmentType = "B" then closeReason else ""
    match roc_to_gregorian birthdayRoc with
    | .error e => .error e
    | .ok bday =>
        .ok (_fw enc segmentType 1 "l"
          ++ _fw enc fixed.planNo 2 "r"
          ++ _fw enc fixed.branchCode 1 "l"
          ++ _fw enc fixed.hospId 10 "r"
          ++ _fw enc row.idNum 10 "l"
          ++ _fw enc bday 8 "r"
          ++ _fw enc row.name 12 "l"
          ++ _fw enc (_map_sex row.idNum) 1 "l"
          ++ _fw enc row.addr 120 "l"
          ++ _fw enc (_clean_tel row.tel) 15 "l"
          ++ _fw enc fixed.prsnId 10 "r"
          ++ _fw enc (dictGet CASE_TYPE_MAP caseNum "B") 1 "l"
          ++ _fw enc formattedStart 8 "r"
          ++ _fw enc formattedEnd 8 "r"
          ++ _fw enc finalCloseReason 1 "l")

theorem fw_length (enc : Encoding) (v : String) (w : Nat) (a : String) :
    (_fw enc v w a).length = w := by
  unfold _fw
  split <;> simp

/-- A concrete ASCII encoding used for evaluation witnesses. -/
def asciiEnc : Encoding := fun s => s.data.map Char.toNat

/-- A demonstration row whose record builds successfully. -/
def rowW : Row := ⟨"0850101", "3", "A123456789", "WANG", "TAIPEI", "0912345678"⟩

/-- Demonstration run-level constants. -/
def fixedW : FixedParams := ⟨"09", "3", "1234567890", "A987654321"⟩

/-- C1: whenever `build_record` returns a record (does not raise), that
record is exactly 208 bytes long, for every encoding, row and set of
run-level constants, including empty field values and values whose encoded
byte width exceeds the declared field width; the source's
`assert len(record) == RECORD_LEN` can therefore never fail. -/
theorem c1_record_length (enc : Encoding) (row : Row) (fixed : FixedParams)
    (sd ed seg cr : String) (rec : List Byte)
    (h : build_record enc row fixed sd ed seg cr = .ok rec) :
    rec.length = 208 := by
  simp only [build_record] at h
  split at h
  · exact absurd h (by simp)
  · cases hroc : roc_to_gregorian (pyStrip row.birth) with
    | error e => rw [hroc] at h; simp at h
    | ok bday =>
        rw [hroc] at h
        simp only [Except.ok.injEq] at h
        subst h
        simp [List.length_append, fw_length]

/-- The concrete record produced by the witness build below. -/
def recW : List Byte :=
  (build_record asciiEnc rowW fixedW "1130101" "" "A" "").toOption.getD []

/-- C1 witness: a concrete successful build whose record has length 208. -/
theorem c1_record_length_witness :
    build_record asciiEnc rowW fixedW "1130101" "" "A" "" = .ok recW ∧
      recW.length = 208 := by
  have h : build_record asciiEnc rowW fixedW "1130101" "" "A" "" = .ok recW := by rfl
  exact ⟨h, c1_record_length asciiEnc rowW fixedW "1130101" "" "A" "" recW h⟩

theorem dictGet_case (n : Nat) :
    dictGet CASE_TYPE_MAP n "B" =
      if n = 1 ∨ n = 2 ∨ n = 3 ∨ n = 4 ∨ n = 5 ∨ n = 7 then "A"
      else if n = 6 then "C" else "B" := by
  match n with
  | 0 => decide
  | 1 => decide
  | 2 => decide
  | 3 => decide
  | 4 => decide
  | 5 => decide
  | 6 => decide
  | 7 => decide
  | k + 8 =>
      have h : dictGet CASE_TYPE_MAP (k + 8) "B" = "B" := rfl
      rw [h, if_neg (by omega), if_neg (by omega)]

/-- C9: the encoded CASE_TYPE equals "A" when the raw case code denotes one
of 1,2,3,4,5,7, "C" when it denotes 6, and "B" for anything else; a raw
code that is not a digit string gets case number 0 and so falls back to
"B"; the computation is total (one of "A"/"B"/"C" always results), so the
fallback is never fatal for the record. -/
theorem c9_case_type (raw : String) :
    (caseTypeOf raw =
      if caseNumOf raw = 1 ∨ caseNumOf raw = 2 ∨ caseNumOf raw = 3 ∨
         caseNumOf raw = 4 ∨ caseNumOf raw = 5 ∨ caseNumOf raw = 7 then "A"
      else if caseNumOf raw = 6 then "C" else "B") ∧
    (caseNumOf raw =
      if pyIsDigitStr (lstripApos (pyStrip raw)) then
        pyIntDigits (lstripApos (pyStrip raw)) else 0) ∧
    (caseTypeOf raw = "A" ∨ caseTypeOf raw = "B" ∨ caseTypeOf raw = "C") := by
  refine ⟨dictGet_case (caseNumOf raw), rfl, ?_⟩
  rw [caseTypeOf, dictGet_case (caseNumOf raw)]
  split_ifs <;> simp

/-- Python values reaching `_clean_id`: a string, or any non-string value
(NaN, numbers) which the `isinstance` guard maps to the empty sentinel. -/
inductive PyVal
  | str (s : String)
  | nonstr
deriving DecidableEq

/-- The character pipeline of `_clean_id`:
`value.strip().lstrip("'").rstrip("'").upper()`. -/
def cleanChars (l : List Char) : List Char :=
  (rstripAposChars (lstripAposChars (stripChars l))).map pyUpperChar

/-- Source `_clean_id` (fm_converter.py lines 195-199). -/
def _clean_id : PyVal → String
  | .nonstr => ""
  | .str v => ⟨cleanChars v.data⟩

/-- `_clean_id` applied to a string value. -/
def cleanIdS (s : String) : String := _clean_id (.str s)

/-- A one-apostrophe string, written via its code point. -/
def aposStr : String := String.singleton apos

/-- C6 counterexample: the full-width digit U+FF11 is not mapped to the
half-width "1" (the code performs no width normalization), and both of
two leading apostrophes are stripped where the claim strips a single one
(the claim predicts the results "1" and the one-quote form). -/
theorem c6_counterexample :
    cleanIdS "１" = "１" ∧ ("１" : String) ≠ "1" ∧
    cleanIdS (aposStr ++ aposStr ++ "A") = "A" ∧ ("A" : String) ≠ aposStr ++ "A" :=
  ⟨rfl, by decide, rfl, by decide⟩

theorem stripChars_apos_wrap (l : List Char) :
    stripChars (apos :: (l ++ [apos])) = apos :: (l ++ [apos]) := by
  have hw : Char.isWhitespace apos = false := rfl
  unfold stripChars
  rw [List.dropWhile_cons]
  simp only [hw, Bool.false_eq_true, if_false]
  have h1 : (apos :: (l ++ [apos])).reverse = apos :: (l.reverse ++ [apos]) := by simp
  rw [h1, List.dropWhile_cons]
  simp only [hw, Bool.false_eq_true, if_false]
  simp

theorem lstrip_cons_apos (l : List Char) :
    lstripAposChars (apos :: l) = lstripAposChars l := by
  unfold lstripAposChars
  rw [List.dropWhile_cons]
  simp

theorem rstrip_append_apos (l : List Char) :
    rstripAposChars (l ++ [apos]) = rstripAposChars l := by
  unfold rstripAposChars
  rw [List.reverse_append]
  simp only [List.reverse_cons, List.reverse_nil, List.nil_append, List.singleton_append]
  rw [List.dropWhile_cons]
  simp

theorem lstrip_append_apos (l : List Char) :
    lstripAposChars (l ++ [apos]) =
      if l.all (fun c => c == apos) = true then [] else lstripAposChars l ++ [apos] := by
  have key : (List.dropWhile (fun c => c == apos) l).isEmpty = l.all (fun c => c == apos) := by
    rw [Bool.eq_iff_iff]
    simp [List.isEmpty_iff, List.dropWhile_eq_nil_iff, List.all_eq_true]
  unfold lstripAposChars
  rw [List.dropWhile_append, key]
  by_cases hall : l.all (fun c => c == apos) = true
  · rw [if_pos hall, if_pos hall]
    simp [List.dropWhile_cons]
  · rw [if_neg hall, if_neg hall]

/-- C6 amended: identifier normalization trims whitespace, strips ALL
leading and trailing apostrophes (so wrapping an already-trimmed
identifier in quote characters never changes its key), upper-cases the
result without any full-width to half-width mapping, and maps non-string
or empty input to the empty sentinel; it is a pure total function. -/
theorem c6_clean_id_amended (s : String) :
    (stripChars s.data = s.data →
      cleanIdS (aposStr ++ s ++ aposStr) = cleanIdS s) ∧
    _clean_id PyVal.nonstr = "" ∧ cleanIdS "" = "" := by
  refine ⟨?_, rfl, rfl⟩
  intro h
  show (⟨cleanChars (aposStr ++ s ++ aposStr).data⟩ : String) = ⟨cleanChars s.data⟩
  have ha : aposStr.data = [apos] := rfl
  have hdata : (aposStr ++ s ++ aposStr).data = apos :: (s.data ++ [apos]) := by
    simp [String.data_append, ha]
  rw [hdata]
  unfold cleanChars
  rw [stripChars_apos_wrap, lstrip_cons_apos, h, lstrip_append_apos]
  by_cases hall : s.data.all (fun c => c == apos) = true
  · rw [if_pos hall]
    have hnil : lstripAposChars s.data = [] :=
      List.dropWhile_eq_nil_iff.mpr (List.all_eq_true.mp hall)
    rw [hnil]
  · rw [if_neg hall, rstrip_append_apos]

/-- C6 witness: quote-wrapping a concrete trimmed identifier leaves its
normalized key unchanged, and that key is the upper-cased form. -/
theorem c6_clean_id_amended_witness :
    cleanIdS (aposStr ++ "a1" ++ aposStr) = cleanIdS "a1" ∧ cleanIdS "a1" = "A1" :=
  ⟨(c6_clean_id_amended "a1").1 (by decide), rfl⟩

/-- The per-row build loop of `convert` (fm_converter.py lines 328-334):
a row whose `build_record` raises is logged and skipped; the remaining
rows of the batch are still processed. -/
def buildAll (enc : Encoding) (fixed : FixedParams) (sd ed seg cr : String) :
    List Row → List (List Byte)
  | [] => []
  | r :: rs =>
      match build_record enc r fixed sd ed seg cr with
      | .ok rec => rec :: buildAll enc fixed sd ed seg cr rs
      | .error _ => buildAll enc fixed sd ed seg cr rs

/-- A row whose birthday is present but malformed (length 2), so its
build raises and the row is skipped. -/
def rowBad : Row := ⟨"85", "3", "A123456789", "X", "Y", "0912"⟩

/-- C8 counterexample: the claim says every string whose length is not 6
or 7 is a format error, but the code first strips `/` and `-`, so the
length-8 string "085-0101" converts successfully instead of erroring. -/
theorem c8_counterexample :
    ("085-0101" : String).length = 8 ∧
      roc_to_gregorian "085-0101" = .ok "19960101" := ⟨rfl, rfl⟩

/-- C8 amended: after removing `/` and `-` separators, a digit string of
length 6 or 7 converts to Gregorian by adding 1911 to the leading year
digits and keeping the trailing MMDD; any input whose separator-stripped
form has another length raises a format error; and a row whose build
raises is skipped while the rest of the batch is still processed. -/
theorem c8_roc_amended :
    (∀ s : String, ¬((stripSeps s).length = 6 ∨ (stripSeps s).length = 7) →
      roc_to_gregorian s = .error "Unexpected ROC date format") ∧
    (∀ s : String, (stripSeps s).data.all Char.isDigit = true →
      ((stripSeps s).length = 6 ∨ (stripSeps s).length = 7) →
      roc_to_gregorian s =
        .ok (pad4 (pyIntDigits ⟨(stripSeps s).data.take ((stripSeps s).length - 4)⟩ + 1911) ++
          ⟨(stripSeps s).data.drop ((stripSeps s).length - 4)⟩)) ∧
    (∀ (enc : Encoding) (fixed : FixedParams) (sd ed seg cr : String) (r : Row)
        (rs : List Row) (e : String),
      build_record enc r fixed sd ed seg cr = .error e →
      buildAll enc fixed sd ed seg cr (r :: rs) = buildAll enc fixed sd ed seg cr rs) := by
  refine ⟨?_, ?_, ?_⟩
  · intro s h
    simp only [roc_to_gregorian]
    rw [if_neg h]
  · intro s hdig hlen
    simp only [roc_to_gregorian]
    rw [if_pos hlen, if_pos ?_]
    have hne : (stripSeps s).data ≠ [] := by
      intro hnil
      have : (stripSeps s).length = 0 := by
        simp [String.length, hnil]
      omega
    have htake : ((stripSeps s).data.take ((stripSeps s).length - 4)) ≠ [] := by
      intro hnil
      have h4 : (stripSeps s).data.length = (stripSeps s).length := rfl
      have := congrArg List.length hnil
      simp [List.length_take] at this
      omega
    simp only [pyIsDigitStr, Bool.and_eq_true, Bool.not_eq_true']
    constructor
    · simpa [List.isEmpty_iff] using htake
    · rw [List.all_eq_true]
      intro x hx
      exact (List.all_eq_true.mp hdig) x (List.take_subset _ _ hx)
  · intro enc fixed sd ed seg cr r rs e hbr
    simp only [buildAll]
    rw [hbr]

/-- C8 witness: the amended statement instantiated at "85" (row-level
format error), "0850101" (successful conversion), and a concrete batch
where the malformed row is skipped and the good row still builds. -/
theorem c8_roc_amended_witness :
    roc_to_gregorian "85" = .error "Unexpected ROC date format" ∧
    roc_to_gregorian "0850101" =
      .ok (pad4 (pyIntDigits ⟨(stripSeps "0850101").data.take ((stripSeps "0850101").length - 4)⟩ + 1911) ++
        ⟨(stripSeps "0850101").data.drop ((stripSeps "0850101").length - 4)⟩) ∧
    buildAll asciiEnc fixedW "1130101" "" "A" "" [rowBad, rowW] =
      buildAll asciiEnc fixedW "1130101" "" "A" "" [rowW] :=
  ⟨c8_roc_amended.1 "85" (by decide),
   c8_roc_amended.2.1 "0850101" (by decide) (by decide),
   c8_roc_amended.2.2 asciiEnc fixedW "1130101" "" "A" "" rowBad [rowW]
     "Unexpected ROC date format" (by rfl)⟩

/-- The SEX rule exactly as the claim words it: look at the second
character when it exists, otherwise blank. -/
def sexScheme (s : String) : String :=
  match s.data with
  | _ :: c :: _ =>
      if c = '1' ∨ c = '8' then "1" else if c = '2' ∨ c = '9' then "2" else ""
  | _ => ""

/-- C10: the derived SEX field is "1" when the identifier's second
character is 1 or 8, "2" when it is 2 or 9, and blank in every other case
(including identifiers without a second character); the derivation is
total and only ever yields "1", "2" or blank, so an ambiguous identifier
never aborts the record. -/
theorem c10_sex_mapping (s : String) :
    _map_sex s = sexScheme s ∧
    (_map_sex s = "1" ∨ _map_sex s = "2" ∨ _map_sex s = "") := by
  constructor
  · obtain ⟨l⟩ := s
    match l with
    | [] => rfl
    | [a] => rfl
    | a :: c :: rest =>
        unfold _map_sex sexScheme
        rw [if_neg (by simp [String.length])]
        rfl
  · unfold _map_sex
    split
    · simp
    · split_ifs <;> simp

/-- The parameter names of `fm_converter.convert`'s signature
(fm_converter.py lines 231-244); the function declares no `**kwargs`. -/
def convert_param_names : List String :=
  ["long_path", "short_path", "fixed", "upload_month", "start_date", "end_date",
   "segment_type", "close_reason", "seq_start", "out_encoding", "outdir", "mode"]

/-- The keyword names the GUI's convert handler passes to
`fm_converter.convert` (fm_converter_gui.py lines 207-216) — for the
`next_batch` task as for every other task, `rejection_path` included. -/
def gui_convert_kwargs : List String :=
  ["long_path", "short_path", "fixed", "upload_month", "start_date", "end_date",
   "segment_type", "close_reason", "seq_start", "out_encoding", "outdir", "mode",
   "rejection_path"]

/-- Python keyword-call semantics for a function without `**kwargs`: the
call binds and runs only when every keyword names a declared parameter;
otherwise it raises TypeError before the body executes. -/
def pyCallKw (params kwargs : List String) : Except String Unit :=
  if kwargs.all (fun k => params.contains k) then .ok ()
  else .error "TypeError: unexpected keyword argument"

/-- C4: the GUI's next_batch (refinement) invocation passes the keyword
`rejection_path`, which `convert`'s signature does not declare, so the
call raises TypeError and never runs the converter body — no output file
can be produced by the refinement path. -/
theorem c4_gui_call_type_error :
    pyCallKw convert_param_names gui_convert_kwargs =
      .error "TypeError: unexpected keyword argument" ∧
    "rejection_path" ∈ gui_convert_kwargs ∧
    "rejection_path" ∉ convert_param_names := by
  refine ⟨?_, by decide, by decide⟩
  rfl

/-- C3 evaluation: the refinement (next_batch) call site names a keyword
absent from `convert`'s parameters, so the call can never bind — the
claimed byte-for-byte pass-through of accepted records is unreachable in
the code as written. -/
theorem c3_refinement_unreachable :
    "rejection_path" ∉ convert_param_names ∧
    ∀ u : Unit, pyCallKw convert_param_names gui_convert_kwargs ≠ .ok u := by
  refine ⟨by decide, ?_⟩
  intro u h
  have herr : (Except.error "TypeError: unexpected keyword argument" : Except String Unit) =
      Except.ok u := by
    calc Except.error "TypeError: unexpected keyword argument"
        = pyCallKw convert_param_names gui_convert_kwargs := rfl
      _ = Except.ok u := h
  exact absurd herr (by simp)

def charsLe : List Char → List Char → Bool
  | [], _ => true
  | _ :: _, [] => false
  | a :: as, b :: bs =>
      if a.toNat < b.toNat then true
      else if b.toNat < a.toNat then false
      else charsLe as bs

/-- Lexicographic code-point comparison on strings, the order pandas uses
for sorting and grouping string keys. -/
def strLe (a b : String) : Bool := charsLe a.data b.data

/-- Stable insertion into a sorted list. -/
def insertLe {α : Type} (le : α → α → Bool) (x : α) : List α → List α
  | [] => [x]
  | y :: ys => if le x y then x :: y :: ys else y :: insertLe le x ys

/-- Stable insertion sort, modelling the deterministic order pandas
produces for `sort_values` / sorted `groupby` keys (ties keep program
order; the rows sorted below have pairwise distinct keys, so stability
never matters to the statements proved about them). -/
def sortByB {α : Type} (le : α → α → Bool) : List α → List α
  | [] => []
  | x :: xs => insertLe le x (sortByB le xs)

theorem insertLe_perm {α : Type} (le : α → α → Bool) (x : α) (l : List α) :
    (insertLe le x l).Perm (x :: l) := by
  induction l with
  | nil => exact List.Perm.refl _
  | cons y ys ih =>
      unfold insertLe
      split
      · exact List.Perm.refl _
      · exact (ih.cons y).trans (List.Perm.swap x y ys)

theorem sortByB_perm {α : Type} (le : α → α → Bool) (l : List α) :
    (sortByB le l).Perm l := by
  induction l with
  | nil => exact List.Perm.refl _
  | cons x xs ih =>
      unfold sortByB
      exact (insertLe_perm le x (sortByB le xs)).trans (ih.cons x)

/-- First-occurrence deduplication of keys, with an accumulator of keys
already seen (models the distinct group keys of a pandas `groupby`). -/
def dedupKeysGo (seen : List String) : List String → List String
  | [] => []
  | k :: ks =>
      if seen.contains k then dedupKeysGo seen ks
      else k :: dedupKeysGo (k :: seen) ks

theorem mem_dedupKeysGo {seen l : List String} {k : String}
    (h : k ∈ dedupKeysGo seen l) : k ∈ l := by
  induction l generalizing seen with
  | nil => simp [dedupKeysGo] at h
  | cons a as ih =>
      unfold dedupKeysGo at h
      split at h
      · exact List.mem_cons_of_mem a (ih h)
      · rcases List.mem_cons.mp h with h1 | h2
        · exact h1 ▸ List.mem_cons_self a as
        · exact List.mem_cons_of_mem a (ih h2)

/-- One row of the `整年度看診名單` (long/visit) table as the unmatched
branch consumes it: the raw identifier cell, possibly-missing (NaN) name,
birthday and telephone cells, and an address. -/
structure LRowU where
  idRaw : String
  name : Option String
  birth : Option String
  addr : String
  tel : Option String
deriving DecidableEq

/-- One row of the `健保署下載名單` (short) table as the unmatched branch
consumes it: only its identifier column is read. -/
structure SRowU where
  idRaw : String
deriving DecidableEq

/-- A long-table row that survived sanitization (identifier stripped, all
critical cells present). -/
structure VRow where
  id : String
  name : String
  birth : String
  addr : String
  tel : String
deriving DecidableEq

/-- Steps 2 of the unmatched branch (fm_converter.py lines 267-272):
strip the identifier column, drop rows with missing telephone, name or
birthday, and drop rows whose telephone is blank after stripping. -/
def sanitizeLong (long : List LRowU) : List VRow :=
  long.filterMap fun r =>
    match r.name, r.birth, r.tel with
    | some nm, some bd, some tl =>
        if pyStrip tl ≠ "" then some ⟨pyStrip r.idRaw, nm, bd, r.addr, tl⟩ else none
    | _, _, _ => none

/-- Step 3 (fm_converter.py lines 275-276): the set of cleaned short-list
identifiers, with the empty key discarded. -/
def shortIds (short : List SRowU) : List String :=
  (short.map fun r => cleanIdS (pyStrip r.idRaw)).filter (fun k => k != "")

/-- Step 4 (fm_converter.py lines 282-287): eligible candidates are the
sanitized long rows whose cleaned identifier is not in the short list and
whose identifier yields a non-blank sex code. -/
def eligibleRows (long : List LRowU) (short : List SRowU) : List VRow :=
  ((sanitizeLong long).filter fun r =>
    !((shortIds short).contains (cleanIdS r.id))).filter fun r => _map_sex r.id != ""

/-- A `CandidateAggregate`: one row of the aggregated dataframe
(fm_converter.py lines 296-299). -/
structure Agg where
  id : String
  count : Nat
  name : String
  birth : String
  addr : String
  tel : String
deriving DecidableEq

/-- The distinct group keys of `groupby("身分證號")` in pandas key order
(sorted ascending). -/
def groupKeys (rows : List VRow) : List String :=
  sortByB strLe (dedupKeysGo [] (rows.map VRow.id))

/-- One aggregated row: visit_count is the group size, the other fields
come from the first row of the group. -/
def mkAgg (rows : List VRow) (k : String) : Agg :=
  let f := (rows.find? (fun r => r.id == k)).getD ⟨k, "", "", "", ""⟩
  ⟨k, (rows.filter (fun r => r.id == k)).length, f.name, f.birth, f.addr, f.tel⟩

/-- Step 5 (fm_converter.py lines 296-299): aggregation by identifier. -/
def aggregate (rows : List VRow) : List Agg := (groupKeys rows).map (mkAgg rows)

/-- Step 6 sort key (fm_converter.py lines 303-305): descending
visit_count, then descending birthday string. -/
def aggLe (a b : Agg) : Bool :=
  if a.count = b.count then strLe b.birth a.birth else decide (b.count < a.count)

/-- The candidate set a fresh unmatched run returns: empty when no row is
eligible, otherwise the top 200 aggregated candidates by the sort above
(fm_converter.py lines 289-309). -/
def selectUnmatched (long : List LRowU) (short : List SRowU) : List Agg :=
  if eligibleRows long short = [] then []
  else (sortByB aggLe (aggregate (eligibleRows long short))).take 200

/-- A selected candidate as `build_record` sees it: the aggregated frame
has no `個案類別` column, so `row.get` yields the empty string there. -/
def aggRow (a : Agg) : Row := ⟨a.birth, "", a.id, a.name, a.addr, a.tel⟩

def chunksGo {α : Type} : Nat → Nat → List α → List (List α)
  | 0, _, _ => []
  | _ + 1, _, [] => []
  | fuel + 1, n, x :: xs => ((x :: xs).take n) :: chunksGo fuel n ((x :: xs).drop n)

/-- Source `chunks` (fm_converter.py lines 225-228), with the list length
as recursion fuel (sufficient for every positive chunk size used). -/
def chunksOf {α : Type} (n : Nat) (l : List α) : List (List α) := chunksGo l.length n l

/-- The whole unmatched branch of `convert` (fm_converter.py lines
256-309 plus the common build/write logic, lines 327-353): the written
files are represented by their record contents. -/
def convertUnmatched (enc : Encoding) (long : List LRowU) (short : List SRowU)
    (fixed : FixedParams) (sd ed seg cr : String) :
    Except String (List (List (List Byte))) :=
  if eligibleRows long short = [] then .ok []
  else if buildAll enc fixed sd ed seg cr
      (((sortByB aggLe (aggregate (eligibleRows long short))).take 200).map aggRow) = [] then
    .ok []
  else
    .ok (chunksOf 200 (buildAll enc fixed sd ed seg cr
      (((sortByB aggLe (aggregate (eligibleRows long short))).take 200).map aggRow)))

/-- One short-table row as the matched branch consumes it (identifier,
birthday and case-type columns; the rename table maps the `_x`-suffixed
columns of the short side to the record fields). -/
structure SRowM where
  id : String
  birth : String
  caseCode : String
deriving DecidableEq

/-- One long-table row as the matched branch consumes it (the `_y` side:
name, address, telephone). -/
structure LRowM where
  id : String
  name : String
  addr : String
  tel : String
deriving DecidableEq

/-- One merged row after the rename step (fm_converter.py lines 313-322):
raw identifier, birthday and case code from the short side, name, address
and telephone from the long side. -/
structure MRow where
  sid : String
  birth : String
  caseCode : String
  name : String
  addr : String
  tel : String
deriving DecidableEq

/-- `pd.merge(short_df, long_df, on="ID_CLEAN", how="inner")`: for each
short row in order, every long row whose cleaned identifier matches. -/
def innerJoin (short : List SRowM) (long : List LRowM) : List MRow :=
  short.flatMap fun s =>
    (long.filter fun l => cleanIdS l.id == cleanIdS s.id).map fun l =>
      ⟨s.id, s.birth, s.caseCode, l.name, l.addr, l.tel⟩

/-- Source `merge_sources` (fm_converter.py lines 216-222): raises
ValueError when the inner join is empty. -/
def merge_sources (long : List LRowM) (short : List SRowM) :
    Except String (List MRow) :=
  if innerJoin short long = [] then .error "No matching IDs …"
  else .ok (innerJoin short long)

/-- `drop_duplicates(subset="身分證號")` (fm_converter.py line 323): keep
the first occurrence of each RAW identifier value. -/
def dropDupGo (seen : List String) : List MRow → List MRow
  | [] => []
  | r :: rs =>
      if seen.contains r.sid then dropDupGo seen rs
      else r :: dropDupGo (r.sid :: seen) rs

def mrowLe (a b : MRow) : Bool := strLe a.sid b.sid

/-- The row list the matched branch encodes: join, dedup on the raw
identifier, sort by it (fm_converter.py lines 312-325). -/
def matchedRows (long : List LRowM) (short : List SRowM) : List MRow :=
  sortByB mrowLe (dropDupGo [] (innerJoin short long))

def mrowRow (m : MRow) : Row := ⟨m.birth, m.caseCode, m.sid, m.name, m.addr, m.tel⟩

/-- The whole matched branch of `convert` (fm_converter.py lines 311-325
plus the common build/write logic). -/
def convertMatched (enc : Encoding) (long : List LRowM) (short : List SRowM)
    (fixed : FixedParams) (sd ed seg cr : String) :
    Except String (List (List (List Byte))) :=
  match merge_sources long short with
  | .error e => .error e
  | .ok m =>
      if buildAll enc fixed sd ed seg cr
          ((sortByB mrowLe (dropDupGo [] m)).map mrowRow) = [] then .ok []
      else
        .ok (chunksOf 9999 (buildAll enc fixed sd ed seg cr
          ((sortByB mrowLe (dropDupGo [] m)).map mrowRow)))

/-- Demonstration unmatched-mode data: one eligible visit row and one
short-list row with a different identifier. -/
def longW : List LRowU := [⟨"A123456789", some "X", some "0850101", "ADDR", some "0912"⟩]

def shortW : List SRowU := [⟨"B987654321"⟩]

/-- The first of two consecutive fresh unmatched runs over unchanged
data. -/
def firstRunW : List Agg := selectUnmatched longW shortW

/-- The second consecutive fresh unmatched run: no SubmissionHistory
exists anywhere in the code, so nothing distinguishes it from the first. -/
def secondRunW : List Agg := selectUnmatched longW shortW

/-- C2 counterexample: with source data unchanged and nothing reset, a
second fresh unmatched run returns exactly the candidate set of the
first, which is nonempty — the key A123456789 is offered by both runs, so
the two candidate sets are not disjoint. -/
theorem c2_counterexample :
    firstRunW = secondRunW ∧
    "A123456789" ∈ firstRunW.map Agg.id ∧
    "A123456789" ∈ secondRunW.map Agg.id :=
  ⟨rfl, by decide, by decide⟩

/-- C2 amended: the code keeps no SubmissionHistory; the only exclusion
candidate selection performs is against the cleaned identifiers of the
current short list, so every returned candidate's key is outside that
set — and selection is a pure function of its inputs, so consecutive runs
over unchanged data return identical (overlapping) candidate sets. -/
theorem c2_selection_excludes_shortlist (long : List LRowU) (short : List SRowU)
    (a : Agg) (h : a ∈ selectUnmatched long short) :
    (shortIds short).contains (cleanIdS a.id) = false := by
  unfold selectUnmatched at h
  split at h
  · simp at h
  · have h1 : a ∈ sortByB aggLe (aggregate (eligibleRows long short)) :=
      List.take_subset _ _ h
    have h2 : a ∈ aggregate (eligibleRows long short) :=
      (sortByB_perm aggLe _).mem_iff.mp h1
    obtain ⟨k, hk, hak⟩ := List.mem_map.mp h2
    have hid : a.id = k := by rw [← hak]; simp [mkAgg]
    have hk1 : k ∈ sortByB strLe
        (dedupKeysGo [] ((eligibleRows long short).map VRow.id)) := hk
    have hk2 : k ∈ dedupKeysGo [] ((eligibleRows long short).map VRow.id) :=
      (sortByB_perm strLe _).mem_iff.mp hk1
    obtain ⟨r, hr, hrk⟩ := List.mem_map.mp (mem_dedupKeysGo hk2)
    have hfil := (List.mem_filter.mp (List.mem_filter.mp hr).1).2
    rw [hid, ← hrk]
    simpa using hfil

/-- The one candidate selected from the demonstration data. -/
def aggW : Agg := ⟨"A123456789", 1, "X", "0850101", "ADDR", "0912"⟩

/-- C2 witness: the selected demonstration candidate's cleaned key is
indeed outside the short list's cleaned identifier set. -/
theorem c2_selection_excludes_shortlist_witness :
    (shortIds shortW).contains (cleanIdS aggW.id) = false :=
  c2_selection_excludes_shortlist longW shortW aggW (by decide)

theorem dropDupGo_props (seen : List String) (l : List MRow) (r : MRow)
    (h : r ∈ dropDupGo seen l) : r ∈ l ∧ seen.contains r.sid = false := by
  induction l generalizing seen with
  | nil => simp [dropDupGo] at h
  | cons a as ih =>
      unfold dropDupGo at h
      split at h
      · obtain ⟨hmem, hc⟩ := ih seen h
        exact ⟨List.mem_cons_of_mem a hmem, hc⟩
      · rename_i hseen
        rcases List.mem_cons.mp h with h1 | h2
        · subst h1
          exact ⟨List.mem_cons_self r as, Bool.not_eq_true _ ▸ (by simpa using hseen)⟩
        · obtain ⟨hmem, hc⟩ := ih (a.sid :: seen) h2
          rw [List.contains_cons, Bool.or_eq_false_iff] at hc
          exact ⟨List.mem_cons_of_mem a hmem, hc.2⟩

theorem dropDupGo_nodup (seen : List String) (l : List MRow) :
    ((dropDupGo seen l).map MRow.sid).Nodup := by
  induction l generalizing seen with
  | nil => simp [dropDupGo]
  | cons a as ih =>
      unfold dropDupGo
      split
      · exact ih seen
      · simp only [List.map_cons, List.nodup_cons]
        refine ⟨?_, ih (a.sid :: seen)⟩
        intro hmem
        obtain ⟨x, hx, hxs⟩ := List.mem_map.mp hmem
        have hc := (dropDupGo_props (a.sid :: seen) as x hx).2
        rw [List.contains_cons, Bool.or_eq_false_iff] at hc
        exact absurd hxs (by simpa using beq_eq_false_iff_ne.mp hc.1)

theorem dropDupGo_find (seen : List String) (l : List MRow) (r : MRow)
    (h : r ∈ dropDupGo seen l) (hs : seen.contains r.sid = false) :
    l.find? (fun x => x.sid == r.sid) = some r := by
  induction l generalizing seen with
  | nil => simp [dropDupGo] at h
  | cons a as ih =>
      unfold dropDupGo at h
      split at h
      · rename_i hseen
        have hfalse : (a.sid == r.sid) = false := by
          rw [beq_eq_false_iff_ne]
          intro heq
          rw [heq] at hseen
          rw [hseen] at hs
          exact Bool.true_eq_false.mp hs
        rw [List.find?_cons, hfalse]
        exact ih seen h hs
      · rcases List.mem_cons.mp h with h1 | h2
        · subst h1
          rw [List.find?_cons]
          simp
        · have hc0 := (dropDupGo_props (a.sid :: seen) as r h2).2
          have hc := hc0
          rw [List.contains_cons, Bool.or_eq_false_iff] at hc
          have hfalse : (a.sid == r.sid) = false := by
            rw [beq_eq_false_iff_ne]
            exact Ne.symm (beq_eq_false_iff_ne.mp hc.1)
          rw [List.find?_cons, hfalse]
          exact ih (a.sid :: seen) h2 hc0

/-- C7 amended: the matched pipeline emits at most one record per
distinct RAW short-side identifier value — the deduplicated row list has
pairwise-distinct raw identifiers, and each surviving row is the first
join-order occurrence of its raw identifier.  Distinct raw spellings that
normalize to the same PatientKey each keep their own record. -/
theorem c7_matched_dedup (long : List LRowM) (short : List SRowM) :
    ((matchedRows long short).map MRow.sid).Nodup ∧
    ∀ r ∈ matchedRows long short,
      (innerJoin short long).find? (fun x => x.sid == r.sid) = some r := by
  constructor
  · exact ((sortByB_perm mrowLe
      (dropDupGo [] (innerJoin short long))).map MRow.sid).nodup_iff.mpr
      (dropDupGo_nodup [] (innerJoin short long))
  · intro r hr
    have hr2 : r ∈ dropDupGo [] (innerJoin short long) :=
      (sortByB_perm mrowLe _).mem_iff.mp hr
    exact dropDupGo_find [] _ r hr2 rfl

/-- Matched-mode demonstration data: two short rows whose raw identifiers
differ only by letter case (both normalize to A123456789) and one long
row matching both. -/
def longC7 : List LRowM := [⟨"A123456789", "WANG", "ADDR", "0912"⟩]

def shortC7 : List SRowM :=
  [⟨"a123456789", "0850101", "3"⟩, ⟨"A123456789", "0850101", "3"⟩]

/-- C7 counterexample: the dedup step keys on the raw identifier, so both
spellings survive and two records with the same normalized PatientKey are
encoded — the claimed at-most-one-record-per-normalized-key invariant
fails. -/
theorem c7_counterexample :
    ((matchedRows longC7 shortC7).map fun r => cleanIdS r.sid) =
      ["A123456789", "A123456789"] ∧
    (buildAll asciiEnc fixedW "1130101" "" "A" ""
      ((matchedRows longC7 shortC7).map mrowRow)).length = 2 :=
  ⟨rfl, rfl⟩

/-- The first matched row of the demonstration data. -/
def mrowW : MRow := ⟨"A123456789", "0850101", "3", "WANG", "ADDR", "0912"⟩

/-- C7 witness: on the demonstration data the deduplicated raw ids are
pairwise distinct and a surviving row is its first join occurrence. -/
theorem c7_matched_dedup_witness :
    ((matchedRows longC7 shortC7).map MRow.sid).Nodup ∧
    (innerJoin shortC7 longC7).find? (fun x => x.sid == mrowW.sid) = some mrowW :=
  ⟨(c7_matched_dedup longC7 shortC7).1,
   (c7_matched_dedup longC7 shortC7).2 mrowW (by decide)⟩

/-- C5 counterexample: a matched run whose join is empty (no shared
identifier) raises ValueError instead of returning the empty list of
written files. -/
def longNoMatch : List LRowM := [⟨"B111111111", "N", "A", "0911"⟩]

def shortNoMatch : List SRowM := [⟨"C222222222", "0850101", "3"⟩]

theorem c5_counterexample :
    convertMatched asciiEnc longNoMatch shortNoMatch fixedW "1130101" "" "A" "" =
      .error "No matching IDs …" := rfl

/-- C5 amended: the unmatched branch never raises and reports zero valid
records as the empty list of written files; the matched branch raises a
fatal error on an empty join, and reports the empty list only when the
join was nonempty but no row survived record building. -/
theorem c5_empty_behaviour (enc : Encoding) (lu : List LRowU) (su : List SRowU)
    (lm : List LRowM) (sm : List SRowM) (fixed : FixedParams) (sd ed seg cr : String) :
    (∃ out, convertUnmatched enc lu su fixed sd ed seg cr = .ok out) ∧
    (eligibleRows lu su = [] → convertUnmatched enc lu su fixed sd ed seg cr = .ok []) ∧
    (innerJoin sm lm = [] →
      convertMatched enc lm sm fixed sd ed seg cr = .error "No matching IDs …") ∧
    (∀ m, merge_sources lm sm = .ok m →
      buildAll enc fixed sd ed seg cr ((sortByB mrowLe (dropDupGo [] m)).map mrowRow) = [] →
      convertMatched enc lm sm fixed sd ed seg cr = .ok []) := by
  refine ⟨?_, ?_, ?_, ?_⟩
  · unfold convertUnmatched
    split
    · exact ⟨[], rfl⟩
    · split
      · exact ⟨[], rfl⟩
      · exact ⟨_, rfl⟩
  · intro h
    unfold convertUnmatched
    rw [if_pos h]
  · intro h
    unfold convertMatched merge_sources
    rw [if_pos h]
  · intro m hm hrecs
    unfold convertMatched
    rw [hm]
    dsimp only
    rw [if_pos hrecs]

/-- Matched-mode data with a shared identifier but an empty birthday, so
the join is nonempty yet every build fails. -/
def longC5 : List LRowM := [⟨"A123456789", "X", "Y", "0912"⟩]

def shortC5 : List SRowM := [⟨"A123456789", "", "3"⟩]

/-- C5 witness: the amended statement instantiated — a successful
unmatched run returns ok, an unmatched run with no eligible rows returns
the empty list, an empty matched join raises, and a nonempty matched join
whose builds all fail returns the empty list. -/
theorem c5_empty_behaviour_witness :
    (∃ out, convertUnmatched asciiEnc longW shortW fixedW "1130101" "" "A" "" = .ok out) ∧
    convertUnmatched asciiEnc [] [] fixedW "1130101" "" "A" "" = .ok [] ∧
    convertMatched asciiEnc longNoMatch shortNoMatch fixedW "1130101" "" "A" "" =
      .error "No matching IDs …" ∧
    convertMatched asciiEnc longC5 shortC5 fixedW "1130101" "" "A" "" = .ok [] :=
  ⟨(c5_empty_behaviour asciiEnc longW shortW longNoMatch shortNoMatch fixedW
      "1130101" "" "A" "").1,
   (c5_empty_behaviour asciiEnc [] [] longNoMatch shortNoMatch fixedW
      "1130101" "" "A" "").2.1 rfl,
   (c5_empty_behaviour asciiEnc longW shortW longNoMatch shortNoMatch fixedW
      "1130101" "" "A" "").2.2.1 rfl,
   (c5_empty_behaviour asciiEnc longW shortW longC5 shortC5 fixedW
      "1130101" "" "A" "").2.2.2 (innerJoin shortC5 longC5) rfl rfl⟩

end FM
